import Mathlib

/-!
Verification of the facturacom Python bindings (`facturacom/__init__.py`)
against their natural-language specification.

The Python module is shallowly embedded: JSON values become the inductive
type `Json`, Python dictionaries become association lists with
insertion-order semantics (`dictInsert` updates the first entry with a
matching key in place and otherwise appends at the end, exactly like a
CPython `dict`), and Python exceptions become an explicit `Except PyError`
result.  The HTTP transport itself is abstracted away: a response is a
flag `ok` together with its already-parsed JSON body, and each resource
operation is modelled as a function from the session state, the call
parameters and the transport's reply to the request it issues paired with
the value the Python function returns.
-/

set_option autoImplicit false

namespace Facturacom

/-- A JSON value, as produced by `json.loads`. -/
inductive Json where
  | null
  | bool (b : Bool)
  | num (n : Int)
  | str (s : String)
  | arr (elems : List Json)
  | obj (fields : List (String × Json))

/-- The Python exceptions the module can raise.  `facturaError` is the
module's own `FacturaError(error_json)`; the others are builtin Python
exceptions that escape from the code as written. -/
inductive PyError where
  | facturaError (errorJson : Json)
  | keyError (key : String)
  | typeError

/-- Python `d[k]` / `d.get(k)` on a dict modelled as an association list:
the value of the first entry whose key is `k`. -/
def dictLookup : List (String × Json) → String → Option Json
  | [], _ => none
  | kv :: rest, k => if kv.1 = k then some kv.2 else dictLookup rest k

/-- Python `k in d`. -/
def hasKey (d : List (String × Json)) (k : String) : Bool :=
  d.any (fun kv => kv.1 = k)

/-- Python `d[k] = v` on a dict: if the key is present its value is
updated in place (keeping its position), otherwise the pair is appended
at the end, exactly as CPython dicts preserve insertion order. -/
def dictInsert : List (String × Json) → String → Json → List (String × Json)
  | [], k, v => [(k, v)]
  | kv :: rest, k, v =>
      if kv.1 = k then (kv.1, v) :: rest else kv :: dictInsert rest k v

/-- Removal of every entry with key `k` (a Python dict holds `k` at most
once, so this models `del d[k]`). -/
def dictErase (d : List (String × Json)) (k : String) : List (String × Json) :=
  d.filter (fun kv => kv.1 ≠ k)

/-- Python `d.pop(k)`: the value at `k` together with the dict without
`k`, or `none` when the key is absent (Python raises `KeyError`). -/
def dictPop (d : List (String × Json)) (k : String) :
    Option (Json × List (String × Json)) :=
  match dictLookup d k with
  | some v => some (v, dictErase d k)
  | none => none

/-- Building a dict from a sequence of key/value pairs by successive
insertion, as a Python dict comprehension does: on duplicate keys the
later value wins while the entry keeps the position of the first
occurrence. -/
def dictOfPairs (ps : List (String × Json)) : List (String × Json) :=
  ps.foldl (fun d kv => dictInsert d kv.1 kv.2) []

/-! ## The `_API` session state -/

/-- `_API._SANDBOX_HOST`. -/
def SANDBOX_HOST : String :=
  "http://private-anon-dab239ca03-facturacom.apiary-mock.com"

/-- `_API._PRODUCTION_HOST`. -/
def PRODUCTION_HOST : String := "https://factura.com"

/-- `_API._DEFAULT_VERSION`. -/
def DEFAULT_VERSION : String := "3"

/-- `_API._ALLOWED_MODES`. -/
def ALLOWED_MODES : List String := ["SANDBOX", "PRODUCTION"]

/-- The session configuration held by the `_API` singleton. -/
structure APIState where
  key : Option String
  secret_key : Option String
  mode : String
  deriving DecidableEq

/-- `_API.__init__`: fresh state with no credentials and mode
`PRODUCTION`. -/
def APIState.init : APIState :=
  { key := none, secret_key := none, mode := "PRODUCTION" }

/-- The message of the `FacturaError` raised for an unknown mode; the
Python code joins the allowed modes with a comma. -/
def modeErrorMessage : String :=
  "Unknown API mode. Please choose between: " ++
    String.intercalate ", " ALLOWED_MODES

/-- The `FacturaError` value raised for an unknown mode. -/
def modeError : PyError :=
  PyError.facturaError (Json.obj [("message", Json.str modeErrorMessage)])

/-- The `_API.mode` property setter. -/
def setMode (st : APIState) (value : String) : Except PyError APIState :=
  if value ∈ ALLOWED_MODES then Except.ok { st with mode := value }
  else Except.error modeError

/-- `_API.base(version=None)`: the base URL for the current mode.  The
Python code formats the version with `%s`; callers either omit it or pass
a resource's integer `API_VERSION`, which our callers render with
`toString`. -/
def base (st : APIState) (version : Option String) : Except PyError String :=
  let v := version.getD DEFAULT_VERSION
  if st.mode = "SANDBOX" then Except.ok (SANDBOX_HOST ++ "/api/v" ++ v)
  else if st.mode = "PRODUCTION" then
    Except.ok (PRODUCTION_HOST ++ "/api/v" ++ v)
  else Except.error modeError

/-! ## `_Resource._make_request` -/

/-- The transport's reply, with the body already parsed from JSON
(`json.loads(req.text)` is abstracted as given). -/
structure HttpResponse where
  ok : Bool
  body : Json

/-- The observable shape of the single HTTP request an operation issues:
its method, its full URL and (for non-GET requests) the JSON body that
`json.dumps(params)` serializes. -/
structure HttpRequest where
  method : String
  url : String
  body : Json

/-- Python's `status == 'success'` comparison: a Python `==` between a
non-string JSON value and a string is `False`, and two strings compare
by value. -/
def isSuccess : Json → Bool
  | .str s => s = "success"
  | _ => false

/-- The tail of `_Resource._make_request` once a status value `v` and the
remaining fields `rest` have been popped: `success` returns the pair,
any other status raises `FacturaError(rest)` when `_raise` is set and
otherwise falls through returning `None`. -/
def statusCase (resp : HttpResponse) (v : Json) (rest : List (String × Json))
    (raiseE : Bool) :
    Except PyError (Option (HttpResponse × List (String × Json))) :=
  if isSuccess v then Except.ok (some (resp, rest))
  else if raiseE then Except.error (PyError.facturaError (Json.obj rest))
  else Except.ok none

/-- The response-handling half of `_Resource._make_request`: if the
transport reports ok, pop `status` (falling back to `response`; a body
missing both raises `KeyError`, and a non-object body raises before the
pop) and dispatch on the popped value; if the transport reports non-ok
the function falls off the end and returns `None`. -/
def processResponse (resp : HttpResponse) (raiseE : Bool) :
    Except PyError (Option (HttpResponse × List (String × Json))) :=
  if resp.ok then
    match resp.body with
    | Json.obj fields =>
        match dictPop fields "status" with
        | some (v, rest) => statusCase resp v rest raiseE
        | none =>
            match dictPop fields "response" with
            | some (v, rest) => statusCase resp v rest raiseE
            | none => Except.error (PyError.keyError "response")
    | _ => Except.error PyError.typeError
  else Except.ok none

/-! ## Record hydration (`_Resource._initialize_instance`) -/

/-- Python `str.lower()` on one character, for the ASCII range the
resource keys live in (this is also exactly what core's `Char.toLower`
does). -/
def lowerChar (c : Char) : Char :=
  if 65 ≤ c.toNat ∧ c.toNat ≤ 90 then Char.ofNat (c.toNat + 32) else c

/-- Python `str.lower()` on a key string. -/
def lowerStr (s : String) : String :=
  String.mk (s.data.map lowerChar)

mutual
/-- The lowercasing pass at the end of `_initialize_instance`: the keys of
an object are lowercased (colliding keys collapsing dict-comprehension
style) and, because the Python loop pushes onto its stack only values
that are dicts, the pass recurses into object values but never into
arrays. -/
def lowerJson : Json → Json
  | .obj kvs => .obj (dictOfPairs (lowerFields kvs))
  | .null => .null
  | .bool b => .bool b
  | .num n => .num n
  | .str s => .str s
  | .arr elems => .arr elems

/-- One level of the lowercasing pass over the fields of an object. -/
def lowerFields : List (String × Json) → List (String × Json)
  | [] => []
  | kv :: rest => (lowerStr kv.1, lowerJson kv.2) :: lowerFields rest
end

/-- The full lowercasing pass over a record dict: lowercased fields are
rebuilt by insertion, so later duplicates win while keeping the first
occurrence's position, as in the comprehension the Python code uses. -/
def lowerDict (d : List (String × Json)) : List (String × Json) :=
  dictOfPairs (lowerFields d)

/-- The first statement of `_initialize_instance`: when the params carry
an `id` key its value is stored on the record before anything else. -/
def copyId (existing params : List (String × Json)) : List (String × Json) :=
  match dictLookup params "id" with
  | some v => dictInsert existing "id" v
  | none => existing

/-- The stale-field sweep of `_initialize_instance`: every existing
attribute other than `parent` that does not reappear in the params is
set to `None`. -/
def clearStale (d params : List (String × Json)) : List (String × Json) :=
  d.map (fun kv =>
    if kv.1 ≠ "parent" ∧ ¬ hasKey params kv.1 then (kv.1, Json.null) else kv)

/-- The storing loop of `_initialize_instance`: each params entry is
written onto the record dict in order. -/
def storeNew (d params : List (String × Json)) : List (String × Json) :=
  params.foldl (fun acc kv => dictInsert acc kv.1 kv.2) d

/-- `_Resource._initialize_instance`: the record dict after hydrating a
record whose attribute dict was `existing` with the JSON object
`params`. -/
def hydrate (existing params : List (String × Json)) : List (String × Json) :=
  lowerDict (storeNew (clearStale (copyId existing params) params) params)

mutual
/-- Lowercasing as the specification sentence describes it, for
comparison with `lowerJson`: every nested key of the input is
normalized, so this variant also recurses into arrays. -/
def deepLowerJson : Json → Json
  | .obj kvs => .obj (dictOfPairs (deepLowerFields kvs))
  | .arr elems => .arr (deepLowerList elems)
  | .null => .null
  | .bool b => .bool b
  | .num n => .num n
  | .str s => .str s

/-- One object level of the spec-side lowercasing. -/
def deepLowerFields : List (String × Json) → List (String × Json)
  | [] => []
  | kv :: rest => (lowerStr kv.1, deepLowerJson kv.2) :: deepLowerFields rest

/-- One array level of the spec-side lowercasing. -/
def deepLowerList : List Json → List Json
  | [] => []
  | v :: rest => deepLowerJson v :: deepLowerList rest
end

/-- Hydration as the claim states it, differing from `hydrate` only in
that all nested keys — including those of objects sitting inside arrays
— are normalized to lowercase. -/
def hydrateClaimed (existing params : List (String × Json)) :
    List (String × Json) :=
  dictOfPairs
    (deepLowerFields (storeNew (clearStale (copyId existing params) params)
      params))

/-! ## GET query strings (`urllib.parse.urlencode` with `quote_plus`) -/

/-- A scalar request parameter as Python would pass it (the claims only
exercise strings and integers). -/
inductive PyPrim where
  | str (s : String)
  | int (n : Int)

/-- Python `str()` on a parameter value. -/
def pyStr : PyPrim → String
  | .str s => s
  | .int n => toString n

/-- The uppercase hexadecimal digit for `n < 16`, as `urllib` emits. -/
def hexDigit (n : Nat) : Char :=
  if n < 10 then Char.ofNat (48 + n) else Char.ofNat (55 + n)

/-- A percent-escaped byte, e.g. `%2F`. -/
def byteEscape (b : Nat) : String :=
  "%" ++ String.mk [hexDigit (b / 16), hexDigit (b % 16)]

/-- The UTF-8 bytes of a code point, as Python encodes characters before
percent-escaping them. -/
def utf8Bytes (c : Char) : List Nat :=
  let n := c.toNat
  if n < 128 then [n]
  else if n < 2048 then [192 + n / 64, 128 + n % 64]
  else if n < 65536 then
    [224 + n / 4096, 128 + (n / 64) % 64, 128 + n % 64]
  else
    [240 + n / 262144, 128 + (n / 4096) % 64, 128 + (n / 64) % 64,
      128 + n % 64]

/-- `urllib.parse.quote_plus` on one character: ASCII alphanumerics and
`_.-~` pass through, a space becomes `+`, and everything else is
percent-escaped byte by byte. -/
def quotePlusChar (c : Char) : String :=
  if c.isAlphanum ∨ c = '_' ∨ c = '.' ∨ c = '-' ∨ c = '~' then
    String.mk [c]
  else if c = ' ' then "+"
  else String.join ((utf8Bytes c).map byteEscape)

/-- `urllib.parse.quote_plus` on a string. -/
def quotePlus (s : String) : String :=
  String.join (s.data.map quotePlusChar)

/-- `urllib.parse.urlencode` over scalar values: `key=value` pairs with
both sides quoted, joined by `&`. -/
def urlencode (params : List (String × PyPrim)) : String :=
  String.intercalate "&"
    (params.map (fun kv => quotePlus kv.1 ++ "=" ++ quotePlus (pyStr kv.2)))

/-- The URL a GET issued by `_make_request` targets: `path` untouched for
absent (`None`) or empty params, otherwise `path?query`. -/
def makeGetUrl (path : String) (params : Option (List (String × PyPrim))) :
    String :=
  match params with
  | none => path
  | some [] => path
  | some ps => path ++ "?" ++ urlencode ps

/-! ## Concrete resources -/

namespace CFDI33

/-- `CFDI33.API_VERSION`. -/
def API_VERSION : Nat := 3

/-- `CFDI33._class_name()`: the lowercased, `quote_plus`-escaped class
name. -/
def className : String := quotePlus (lowerStr "CFDI33")

/-- `CFDI33._class_url(api_version)` at the version the class methods
pass, `CFDI33.API_VERSION`. -/
def classUrl (st : APIState) : Except PyError String :=
  (base st (some (toString API_VERSION))).map (fun b => b ++ "/" ++ className)

/-- `CFDI33._create_url()`. -/
def createUrl (st : APIState) : Except PyError String :=
  (classUrl st).map (fun u => u ++ "/create")

/-- `CFDI33.create(params)`: the POST it issues against `_create_url`,
and the record it builds by popping `message` from the success envelope
and hydrating a fresh `CFDI33` from the remaining fields.  A missing
`message` key raises `KeyError`; a non-ok transport makes the tuple
unpacking of `None` raise `TypeError`. -/
def create (st : APIState) (params : Json) (resp : HttpResponse) :
    Except PyError (HttpRequest × List (String × Json)) :=
  match createUrl st with
  | Except.error e => Except.error e
  | Except.ok url =>
      match processResponse resp true with
      | Except.error e => Except.error e
      | Except.ok none => Except.error PyError.typeError
      | Except.ok (some (_, fields)) =>
          match dictPop fields "message" with
          | some (_, rest) =>
              Except.ok ({ method := "POST", url := url, body := params },
                hydrate [] rest)
          | none => Except.error (PyError.keyError "message")

end CFDI33

namespace Customer

/-- `Customer.API_VERSION`. -/
def API_VERSION : Nat := 1

/-- `Customer._class_url(api_version)`: the override ignores its argument
and always uses `Customer.API_VERSION` with the fixed `clients`
segment. -/
def classUrl (st : APIState) : Except PyError String :=
  (base st (some (toString API_VERSION))).map (fun b => b ++ "/" ++ "clients")

/-- `Customer._create_url()`. -/
def createUrl (st : APIState) : Except PyError String :=
  (classUrl st).map (fun u => u ++ "/create")

/-- The shared body of `Customer.create` and `Customer.update`: POST the
params to `_create_url` and hydrate one `Customer` from the envelope's
`data` field, which must be present (`KeyError` otherwise) and must be
an object for `_initialize_instance` to iterate (`TypeError`
otherwise). -/
def createLike (st : APIState) (params : Json) (resp : HttpResponse) :
    Except PyError (HttpRequest × List (String × Json)) :=
  match createUrl st with
  | Except.error e => Except.error e
  | Except.ok url =>
      match processResponse resp true with
      | Except.error e => Except.error e
      | Except.ok none => Except.error PyError.typeError
      | Except.ok (some (_, fields)) =>
          match dictLookup fields "data" with
          | some (Json.obj dataFields) =>
              Except.ok ({ method := "POST", url := url, body := params },
                hydrate [] dataFields)
          | some _ => Except.error PyError.typeError
          | none => Except.error (PyError.keyError "data")

/-- `Customer.create(params)`. -/
def create (st : APIState) (params : Json) (resp : HttpResponse) :
    Except PyError (HttpRequest × List (String × Json)) :=
  createLike st params resp

/-- `Customer.update(params)`: the method body is identical to
`Customer.create`, POSTing to `_create_url` — there is no
update-specific URL in the request it issues. -/
def update (st : APIState) (params : Json) (resp : HttpResponse) :
    Except PyError (HttpRequest × List (String × Json)) :=
  createLike st params resp

end Customer

/-- The value of the last entry of a pair list whose key is exactly `k`:
the value that survives at `k` when the list is rebuilt by successive
insertion. -/
def lookupLast : List (String × Json) → String → Option Json
  | [], _ => none
  | kv :: rest, k =>
      match lookupLast rest k with
      | some v => some v
      | none => if kv.1 = k then some kv.2 else none

/-- The raw value of the last entry of a record dict whose lowercased key
is `k`: the value that will sit at key `k` after the lowercasing pass. -/
def lookupLastLower : List (String × Json) → String → Option Json
  | [], _ => none
  | kv :: rest, k =>
      match lookupLastLower rest k with
      | some v => some v
      | none => if lowerStr kv.1 = k then some kv.2 else none

/-! ## Theorems -/

/-- C3: for every value, `setMode` fails with the mode error — whose
message lists both valid options — when the value is not one of
`SANDBOX`/`PRODUCTION`, and otherwise stores the value as the session
mode. -/
theorem setMode_invalid_or_store (st : APIState) (value : String) :
    (value ∉ ALLOWED_MODES →
      setMode st value = Except.error (PyError.facturaError
        (Json.obj [("message", Json.str modeErrorMessage)])) ∧
      (∃ l r, modeErrorMessage = l ++ "SANDBOX" ++ r) ∧
      (∃ l r, modeErrorMessage = l ++ "PRODUCTION" ++ r)) ∧
    (value ∈ ALLOWED_MODES →
      setMode st value = Except.ok { st with mode := value }) := by
  constructor
  · intro h
    refine ⟨?_, ⟨"Unknown API mode. Please choose between: ", ", PRODUCTION",
      by rfl⟩, ⟨"Unknown API mode. Please choose between: SANDBOX, ", "",
      by rfl⟩⟩
    simp [setMode, h, modeError]
  · intro h
    simp [setMode, h]

/-- Witness for C3 at the invalid value `TEST` and the valid value
`SANDBOX`. -/
theorem setMode_invalid_or_store_witness :
    setMode APIState.init "TEST" = Except.error (PyError.facturaError
      (Json.obj [("message", Json.str modeErrorMessage)])) ∧
    setMode APIState.init "SANDBOX" =
      Except.ok { key := none, secret_key := none, mode := "SANDBOX" } :=
  ⟨((setMode_invalid_or_store APIState.init "TEST").1 (by decide)).1,
    (setMode_invalid_or_store APIState.init "SANDBOX").2 (by decide)⟩

/-- C4: `base` returns `host ++ "/api/v" ++ version` with the fixed
sandbox host in `SANDBOX` mode and the fixed production host in
`PRODUCTION` mode, the version defaulting to `3` when not supplied, and
fails with the mode error when the stored mode is unrecognized. -/
theorem base_url_by_mode (st : APIState) (version : Option String) :
    (st.mode = "SANDBOX" →
      base st version = Except.ok (SANDBOX_HOST ++ "/api/v" ++
        version.getD "3")) ∧
    (st.mode = "PRODUCTION" →
      base st version = Except.ok (PRODUCTION_HOST ++ "/api/v" ++
        version.getD "3")) ∧
    (st.mode ∉ ALLOWED_MODES → base st version = Except.error modeError) := by
  refine ⟨fun h => ?_, fun h => ?_, fun h => ?_⟩
  · simp [base, h, DEFAULT_VERSION]
  · simp [base, h, DEFAULT_VERSION]
  · have h1 : st.mode ≠ "SANDBOX" := fun hc => h (by rw [hc]; decide)
    have h2 : st.mode ≠ "PRODUCTION" := fun hc => h (by rw [hc]; decide)
    simp [base, h1, h2]

/-- Witness for C4 at both recognized modes (with and without an explicit
version) and at an unrecognized mode. -/
theorem base_url_by_mode_witness :
    base { key := none, secret_key := none, mode := "SANDBOX" } none =
      Except.ok (SANDBOX_HOST ++ "/api/v" ++ "3") ∧
    base { key := none, secret_key := none, mode := "PRODUCTION" }
        (some "1") =
      Except.ok (PRODUCTION_HOST ++ "/api/v" ++ "1") ∧
    base { key := none, secret_key := none, mode := "broken" } none =
      Except.error modeError :=
  ⟨(base_url_by_mode { key := none, secret_key := none, mode := "SANDBOX" }
      none).1 rfl,
    (base_url_by_mode { key := none, secret_key := none, mode := "PRODUCTION" }
      (some "1")).2.1 rfl,
    (base_url_by_mode { key := none, secret_key := none, mode := "broken" }
      none).2.2 (by decide)⟩

/-- C9: a freshly constructed session state has mode `PRODUCTION`, so
`base` with no version and no prior `setMode` yields the production host
suffixed with `/api/v3`. -/
theorem init_mode_is_production :
    APIState.init.mode = "PRODUCTION" ∧
    base APIState.init none = Except.ok "https://factura.com/api/v3" :=
  ⟨rfl, rfl⟩

/-- C6: whenever the transport reports the response as non-ok,
`_make_request` raises nothing and simply returns `None`, whatever the
body and the `_raise` flag. -/
theorem transport_not_ok_returns_none (resp : HttpResponse) (raiseE : Bool)
    (h : resp.ok = false) :
    processResponse resp raiseE = Except.ok none := by
  simp [processResponse, h]

/-- Witness for C6 at a concrete non-ok response. -/
theorem transport_not_ok_returns_none_witness :
    processResponse (HttpResponse.mk false (Json.str "gateway timeout")) true =
      Except.ok none :=
  transport_not_ok_returns_none
    (HttpResponse.mk false (Json.str "gateway timeout")) true rfl

/-- C5: a GET against `path` with absent or empty params uses `path`
unmodified, and with non-empty params appends `?` and the `&`-joined,
`quote_plus`-escaped `key=value` pairs; concretely, params
`a = 1, b = "x"` produce the query string `a=1&b=x`. -/
theorem get_url_query_string (path : String) (ps : List (String × PyPrim)) :
    makeGetUrl path none = path ∧
    makeGetUrl path (some []) = path ∧
    (ps ≠ [] → makeGetUrl path (some ps) =
      path ++ "?" ++ String.intercalate "&"
        (ps.map (fun kv => quotePlus kv.1 ++ "=" ++ quotePlus (pyStr kv.2)))) ∧
    makeGetUrl "https://h/api" (some [("a", PyPrim.int 1),
      ("b", PyPrim.str "x")]) = "https://h/api?a=1&b=x" := by
  refine ⟨rfl, rfl, fun h => ?_, by rfl⟩
  match ps, h with
  | kv :: rest, _ => rfl

/-- Witness for C5 at a one-entry params dict whose value needs
URL-escaping. -/
theorem get_url_query_string_witness :
    makeGetUrl "p" (some [("q", PyPrim.str "hello world")]) =
      "p?q=hello+world" :=
  ((get_url_query_string "p" [("q", PyPrim.str "hello world")]).2.2.1
    (by simp)).trans (by rfl)

/-- C1: on a transport-ok JSON object body, `_make_request` pops the
status field — key `status` first, key `response` as the fallback — and
then: a `success` value returns the response paired with the remaining
fields, while any other value raises `FacturaError` carrying exactly the
remaining fields when `_raise` is set, and returns `None` otherwise. -/
theorem make_request_envelope (resp : HttpResponse)
    (fields rest : List (String × Json)) (v : Json) (raiseE : Bool)
    (hok : resp.ok = true) (hbody : resp.body = Json.obj fields)
    (hpop : (dictPop fields "status").orElse
      (fun _ => dictPop fields "response") = some (v, rest)) :
    processResponse resp raiseE =
      if isSuccess v then Except.ok (some (resp, rest))
      else if raiseE then
        Except.error (PyError.facturaError (Json.obj rest))
      else Except.ok none := by
  cases hs : dictPop fields "status" with
  | some p =>
      obtain ⟨pv, pr⟩ := p
      rw [hs] at hpop
      simp only [Option.orElse, Option.some.injEq, Prod.mk.injEq] at hpop
      obtain ⟨hv, hr⟩ := hpop
      subst hv hr
      simp [processResponse, hok, hbody, hs, statusCase]
  | none =>
      rw [hs] at hpop
      simp only [Option.orElse] at hpop
      simp [processResponse, hok, hbody, hs, hpop, statusCase]

/-- Witness for C1 at the claim's example body
`status = failed, message = bad` with `_raise` set. -/
theorem make_request_envelope_witness :
    processResponse (HttpResponse.mk true (Json.obj
        [("status", Json.str "failed"), ("message", Json.str "bad")])) true =
      Except.error (PyError.facturaError
        (Json.obj [("message", Json.str "bad")])) :=
  (make_request_envelope
    (HttpResponse.mk true (Json.obj
      [("status", Json.str "failed"), ("message", Json.str "bad")]))
    [("status", Json.str "failed"), ("message", Json.str "bad")]
    [("message", Json.str "bad")] (Json.str "failed") true
    rfl rfl (by rfl)).trans (by rfl)

/-- C7: `Customer.update` issues its POST against `_create_url`, which is
the class URL followed by `/create` — not an update-specific URL — and
returns one `Customer` hydrated from the envelope's `data` field. -/
theorem customer_update_posts_to_create_url (st : APIState) (u : String)
    (params : Json) (resp : HttpResponse)
    (fields dataFields : List (String × Json))
    (hu : Customer.createUrl st = Except.ok u)
    (hresp : processResponse resp true = Except.ok (some (resp, fields)))
    (hdata : dictLookup fields "data" = some (Json.obj dataFields)) :
    (∀ cu, Customer.classUrl st = Except.ok cu → u = cu ++ "/create") ∧
    Customer.update st params resp =
      Except.ok (HttpRequest.mk "POST" u params, hydrate [] dataFields) := by
  constructor
  · intro cu hcu
    rw [Customer.createUrl, hcu] at hu
    simp only [Except.map, Except.ok.injEq] at hu
    exact hu.symm
  · rw [Customer.update, Customer.createLike, hu, hresp]
    simp [hdata]

/-- Witness for C7 at a production-mode state and a success envelope
carrying a customer object. -/
theorem customer_update_posts_to_create_url_witness :
    Customer.update APIState.init (Json.obj [("name", Json.str "New")])
      (HttpResponse.mk true (Json.obj [("status", Json.str "success"),
        ("data", Json.obj [("UID", Json.str "77")])])) =
      Except.ok (HttpRequest.mk "POST"
          "https://factura.com/api/v1/clients/create"
          (Json.obj [("name", Json.str "New")]),
        [("uid", Json.str "77")]) :=
  ((customer_update_posts_to_create_url APIState.init
    "https://factura.com/api/v1/clients/create"
    (Json.obj [("name", Json.str "New")])
    (HttpResponse.mk true (Json.obj [("status", Json.str "success"),
      ("data", Json.obj [("UID", Json.str "77")])]))
    [("data", Json.obj [("UID", Json.str "77")])]
    [("UID", Json.str "77")]
    (by rfl) (by rfl) (by rfl)).2).trans (by rfl)

/-- C8: `Customer.create` posts its params to
`base/api/v1/clients/create` — API version `1` and the fixed `clients`
segment — and on the claim's success envelope returns one record with
`uid = "123"` and `name = "Acme"`. -/
theorem customer_create_end_to_end (st : APIState) (params : Json)
    (hmode : st.mode = "PRODUCTION") :
    Customer.createUrl st =
      Except.ok "https://factura.com/api/v1/clients/create" ∧
    Customer.create st params
      (HttpResponse.mk true (Json.obj [("status", Json.str "success"),
        ("data", Json.obj [("UID", Json.str "123"),
          ("Name", Json.str "Acme")])])) =
      Except.ok (HttpRequest.mk "POST"
          "https://factura.com/api/v1/clients/create" params,
        [("uid", Json.str "123"), ("name", Json.str "Acme")]) := by
  have h1 : Customer.createUrl st =
      Except.ok "https://factura.com/api/v1/clients/create" := by
    rw [Customer.createUrl, Customer.classUrl, base, hmode]
    rfl
  refine ⟨h1, ?_⟩
  rw [Customer.create, Customer.createLike, h1]
  rfl

/-- Witness for C8 at a fresh (hence production-mode) session state. -/
theorem customer_create_end_to_end_witness :
    Customer.create APIState.init (Json.obj [("name", Json.str "Acme")])
      (HttpResponse.mk true (Json.obj [("status", Json.str "success"),
        ("data", Json.obj [("UID", Json.str "123"),
          ("Name", Json.str "Acme")])])) =
      Except.ok (HttpRequest.mk "POST"
          "https://factura.com/api/v1/clients/create"
          (Json.obj [("name", Json.str "Acme")]),
        [("uid", Json.str "123"), ("name", Json.str "Acme")]) :=
  (customer_create_end_to_end APIState.init
    (Json.obj [("name", Json.str "Acme")]) rfl).2

/-- C10: `CFDI33.create` unconditionally pops the `message` field of a
success envelope: a missing `message` raises `KeyError`, and otherwise
the popped value is discarded and the record is hydrated from all the
remaining envelope fields rather than from a `data` field. -/
theorem cfdi_create_pops_message (st : APIState) (u : String) (params : Json)
    (resp : HttpResponse) (fields : List (String × Json))
    (hu : CFDI33.createUrl st = Except.ok u)
    (hresp : processResponse resp true = Except.ok (some (resp, fields))) :
    (dictLookup fields "message" = none →
      CFDI33.create st params resp =
        Except.error (PyError.keyError "message")) ∧
    (∀ v rest, dictPop fields "message" = some (v, rest) →
      CFDI33.create st params resp =
        Except.ok (HttpRequest.mk "POST" u params, hydrate [] rest)) := by
  constructor
  · intro hm
    have hp : dictPop fields "message" = none := by
      rw [dictPop, hm]
    rw [CFDI33.create, hu, hresp]
    simp [hp]
  · intro v rest hp
    rw [CFDI33.create, hu, hresp]
    simp [hp]

/-- Witness for C10: a success envelope without `message` makes
`CFDI33.create` raise `KeyError`, and one with `message` yields a record
hydrated from the remaining fields. -/
theorem cfdi_create_pops_message_witness :
    CFDI33.create APIState.init (Json.obj [])
      (HttpResponse.mk true (Json.obj [("status", Json.str "success"),
        ("data", Json.obj [("UID", Json.str "A1")])])) =
      Except.error (PyError.keyError "message") ∧
    CFDI33.create APIState.init (Json.obj [])
      (HttpResponse.mk true (Json.obj [("status", Json.str "success"),
        ("message", Json.str "created"), ("UID", Json.str "A1")])) =
      Except.ok (HttpRequest.mk "POST"
          "https://factura.com/api/v3/cfdi33/create" (Json.obj []),
        [("uid", Json.str "A1")]) :=
  ⟨(cfdi_create_pops_message APIState.init
      "https://factura.com/api/v3/cfdi33/create" (Json.obj [])
      (HttpResponse.mk true (Json.obj [("status", Json.str "success"),
        ("data", Json.obj [("UID", Json.str "A1")])]))
      [("data", Json.obj [("UID", Json.str "A1")])]
      (by rfl) (by rfl)).1 (by rfl),
    ((cfdi_create_pops_message APIState.init
      "https://factura.com/api/v3/cfdi33/create" (Json.obj [])
      (HttpResponse.mk true (Json.obj [("status", Json.str "success"),
        ("message", Json.str "created"), ("UID", Json.str "A1")]))
      [("message", Json.str "created"), ("UID", Json.str "A1")]
      (by rfl) (by rfl)).2 (Json.str "created") [("UID", Json.str "A1")]
      (by rfl)).trans (by rfl)⟩

/-! ## Dict lemmas for the hydration theorem -/

theorem dictLookup_dictInsert (d : List (String × Json)) (k : String)
    (v : Json) (k' : String) :
    dictLookup (dictInsert d k v) k' =
      if k' = k then some v else dictLookup d k' := by
  induction d with
  | nil =>
      by_cases h : k' = k
      · simp [dictInsert, dictLookup, h]
      · simp [dictInsert, dictLookup, h, Ne.symm h]
  | cons e rest ih =>
      by_cases he : e.1 = k
      · by_cases hk : k' = k
        · simp [dictInsert, he, dictLookup, hk]
        · have h2 : ¬ k = k' := fun hc => hk hc.symm
          simp [dictInsert, he, dictLookup, hk, h2]
      · by_cases hk : e.1 = k'
        · have h2 : ¬ k' = k := fun hc => he (hk.trans hc)
          simp [dictInsert, he, dictLookup, hk, h2]
        · simp [dictInsert, he, dictLookup, hk, ih]

theorem dictLookup_mem (d : List (String × Json)) (k : String) (v : Json)
    (h : dictLookup d k = some v) : (k, v) ∈ d := by
  induction d with
  | nil => simp [dictLookup] at h
  | cons e rest ih =>
      by_cases he : e.1 = k
      · simp [dictLookup, he] at h
        subst h
        have h2 : (k, e.2) = e := by rw [← he]
        rw [h2]
        exact List.mem_cons_self _ _
      · simp [dictLookup, he] at h
        exact List.mem_cons_of_mem _ (ih h)

theorem dictLookup_nodup (d : List (String × Json))
    (hnd : (d.map Prod.fst).Nodup) (kv : String × Json) (hm : kv ∈ d) :
    dictLookup d kv.1 = some kv.2 := by
  induction d with
  | nil => simp at hm
  | cons e rest ih =>
      rw [List.map_cons] at hnd
      have hnd2 := List.nodup_cons.mp hnd
      rcases List.mem_cons.mp hm with hm1 | hm1
      · subst hm1
        simp [dictLookup]
      · have hne : e.1 ≠ kv.1 := by
          intro hc
          exact hnd2.1 (hc ▸ List.mem_map.mpr ⟨kv, hm1, rfl⟩)
        simp [dictLookup, hne]
        exact ih hnd2.2 hm1

theorem hasKey_eq_false_iff (d : List (String × Json)) (k : String) :
    hasKey d k = false ↔ ∀ kv ∈ d, kv.1 ≠ k := by
  simp [hasKey, List.any_eq_true]

theorem foldl_dictInsert_lookup (l : List (String × Json)) :
    ∀ (d : List (String × Json)) (k : String),
    dictLookup (l.foldl (fun acc kv => dictInsert acc kv.1 kv.2) d) k =
      match lookupLast l k with
      | some v => some v
      | none => dictLookup d k := by
  induction l with
  | nil => intro d k; simp [lookupLast]
  | cons kv rest ih =>
      intro d k
      have step : (kv :: rest).foldl
          (fun acc q => dictInsert acc q.1 q.2) d =
          rest.foldl (fun acc q => dictInsert acc q.1 q.2)
            (dictInsert d kv.1 kv.2) := by
        simp [List.foldl_cons]
      rw [step, ih]
      cases hr : lookupLast rest k with
      | some v => simp [lookupLast, hr]
      | none =>
          rw [dictLookup_dictInsert]
          by_cases hk : k = kv.1
          · subst hk
            simp [lookupLast, hr]
          · have h2 : ¬ kv.1 = k := fun hc => hk hc.symm
            simp [lookupLast, hr, hk, h2]

theorem dictOfPairs_lookup (l : List (String × Json)) (k : String) :
    dictLookup (dictOfPairs l) k = lookupLast l k := by
  rw [dictOfPairs, foldl_dictInsert_lookup]
  cases h : lookupLast l k <;> simp [dictLookup]

theorem lookupLast_lowerFields (l : List (String × Json)) (k : String) :
    lookupLast (lowerFields l) k =
      Option.map lowerJson (lookupLastLower l k) := by
  induction l with
  | nil => simp [lowerFields, lookupLast, lookupLastLower]
  | cons kv rest ih =>
      rw [lowerFields, lookupLast, ih]
      cases hr : lookupLastLower rest k with
      | some v => simp [lookupLastLower, hr]
      | none =>
          by_cases hk : lowerStr kv.1 = k <;>
            simp [lookupLastLower, hr, hk]

theorem countP_dictInsert (d : List (String × Json)) (k0 : String)
    (v : Json) (pred : String → Bool) (hp : pred k0 = false) :
    (dictInsert d k0 v).countP (fun e => pred e.1) =
      d.countP (fun e => pred e.1) := by
  induction d with
  | nil => simp [dictInsert, List.countP_cons, hp]
  | cons e rest ih =>
      by_cases he : e.1 = k0
      · simp [dictInsert, he, List.countP_cons]
      · simp [dictInsert, he, List.countP_cons, ih]

theorem lookupLastLower_eq_none (l : List (String × Json)) (k : String)
    (h : ∀ kv ∈ l, lowerStr kv.1 ≠ k) : lookupLastLower l k = none := by
  induction l with
  | nil => rfl
  | cons kv rest ih =>
      have hr : lookupLastLower rest k = none :=
        ih (fun q hq => h q (List.mem_cons_of_mem _ hq))
      have hk : lowerStr kv.1 ≠ k := h kv (List.mem_cons_self _ _)
      simp [lookupLastLower, hr, hk]

theorem lookupLastLower_dictInsert (d : List (String × Json)) (k0 : String)
    (v : Json)
    (hcnt : d.countP (fun e => lowerStr e.1 == lowerStr k0) ≤ 1)
    (k : String) :
    lookupLastLower (dictInsert d k0 v) k =
      if lowerStr k0 = k then some v else lookupLastLower d k := by
  induction d with
  | nil =>
      by_cases hk : lowerStr k0 = k <;>
        simp [dictInsert, lookupLastLower, hk]
  | cons e rest ih =>
      by_cases he : e.1 = k0
      · have hbe : (lowerStr e.1 == lowerStr k0) = true := by simp [he]
        rw [List.countP_cons, hbe] at hcnt
        simp only [if_true] at hcnt
        have hr0 : rest.countP
            (fun q => lowerStr q.1 == lowerStr k0) = 0 := by omega
        have hrz : ∀ q ∈ rest, lowerStr q.1 ≠ lowerStr k0 := by
          intro q hq
          have := List.countP_eq_zero.mp hr0 q hq
          simpa using this
        by_cases hk : lowerStr k0 = k
        · have hnone2 : lookupLastLower rest k = none :=
            lookupLastLower_eq_none rest k
              (fun q hq => by rw [← hk]; exact hrz q hq)
          simp [dictInsert, he, lookupLastLower, hnone2, hk]
        · have hke : ¬ lowerStr e.1 = k := by rw [he]; exact hk
          cases hr : lookupLastLower rest k with
          | some w => simp [dictInsert, he, lookupLastLower, hr, hk]
          | none => simp [dictInsert, he, lookupLastLower, hr, hk, hke]
      · have hcr : rest.countP
            (fun e => lowerStr e.1 == lowerStr k0) ≤ 1 := by
          rw [List.countP_cons] at hcnt
          omega
        by_cases hk : lowerStr k0 = k
        · simp [dictInsert, he, lookupLastLower, ih hcr, hk]
        · cases hr : lookupLastLower rest k with
          | some w => simp [dictInsert, he, lookupLastLower, ih hcr, hk, hr]
          | none => simp [dictInsert, he, lookupLastLower, ih hcr, hk, hr]

theorem lookupLastLower_storeNew (p : List (String × Json)) :
    ∀ (d : List (String × Json)) (k : String),
    (p.map (fun kv => lowerStr kv.1)).Nodup →
    (∀ kv ∈ p, d.countP (fun e => lowerStr e.1 == lowerStr kv.1) ≤ 1) →
    lookupLastLower (storeNew d p) k =
      match lookupLastLower p k with
      | some v => some v
      | none => lookupLastLower d k := by
  induction p with
  | nil => intro d k _ _; simp [storeNew, lookupLastLower]
  | cons kv rest ih =>
      intro d k hnd hcnt
      rw [List.map_cons] at hnd
      have hnd2 := List.nodup_cons.mp hnd
      have hstep : storeNew d (kv :: rest) =
          storeNew (dictInsert d kv.1 kv.2) rest := by
        simp [storeNew, List.foldl_cons]
      have hrest_cnt : ∀ q ∈ rest,
          (dictInsert d kv.1 kv.2).countP
            (fun e => lowerStr e.1 == lowerStr q.1) ≤ 1 := by
        intro q hq
        have hne : lowerStr kv.1 ≠ lowerStr q.1 := by
          intro hc
          exact hnd2.1 (hc ▸ List.mem_map.mpr ⟨q, hq, rfl⟩)
        rw [countP_dictInsert d kv.1 kv.2
          (fun s => lowerStr s == lowerStr q.1) (by simpa using hne)]
        exact hcnt q (List.mem_cons_of_mem _ hq)
      rw [hstep, ih (dictInsert d kv.1 kv.2) k hnd2.2 hrest_cnt]
      have hins := lookupLastLower_dictInsert d kv.1 kv.2
        (hcnt kv (List.mem_cons_self _ _)) k
      cases hr : lookupLastLower rest k with
      | some w => simp [lookupLastLower, hr]
      | none =>
          rw [hins]
          by_cases hk : lowerStr kv.1 = k <;>
            simp [lookupLastLower, hr, hk]

theorem lookupLastLower_self (p : List (String × Json))
    (hnd : (p.map (fun kv => lowerStr kv.1)).Nodup) (kv : String × Json)
    (hm : kv ∈ p) : lookupLastLower p (lowerStr kv.1) = some kv.2 := by
  induction p with
  | nil => simp at hm
  | cons e rest ih =>
      rw [List.map_cons] at hnd
      have hnd2 := List.nodup_cons.mp hnd
      rcases List.mem_cons.mp hm with hm1 | hm1
      · subst hm1
        have hnone : lookupLastLower rest (lowerStr kv.1) = none := by
          refine lookupLastLower_eq_none rest (lowerStr kv.1) ?_
          intro q hq hc
          exact hnd2.1 (hc ▸ List.mem_map.mpr ⟨q, hq, rfl⟩)
        simp [lookupLastLower, hnone]
      · have := ih hnd2.2 hm1
        simp [lookupLastLower, this]

theorem lookupLastLower_of_lowercase (d : List (String × Json))
    (hlow : ∀ kv ∈ d, lowerStr kv.1 = kv.1)
    (hnd : (d.map Prod.fst).Nodup) (k : String) :
    lookupLastLower d k = dictLookup d k := by
  induction d with
  | nil => rfl
  | cons e rest ih =>
      rw [List.map_cons] at hnd
      have hnd2 := List.nodup_cons.mp hnd
      have hlow2 : ∀ kv ∈ rest, lowerStr kv.1 = kv.1 :=
        fun q hq => hlow q (List.mem_cons_of_mem _ hq)
      have hrec := ih hlow2 hnd2.2
      have hle : lowerStr e.1 = e.1 := hlow e (List.mem_cons_self _ _)
      cases hr : lookupLastLower rest k with
      | some w =>
          have hkr : dictLookup rest k = some w := hr ▸ hrec.symm
          have hkmem : k ∈ rest.map Prod.fst :=
            List.mem_map.mpr ⟨(k, w), dictLookup_mem rest k w hkr, rfl⟩
          have hne : ¬ e.1 = k := fun hc => hnd2.1 (hc ▸ hkmem)
          simp [lookupLastLower, dictLookup, hr, hne, hkr]
      | none =>
          have hkr : dictLookup rest k = none := hr ▸ hrec.symm
          by_cases hk : e.1 = k
          · have hlk : lowerStr k = k := hk ▸ hle
            simp [lookupLastLower, dictLookup, hr, hk, hle, hlk]
          · have h2 : ¬ lowerStr e.1 = k := by rw [hle]; exact hk
            simp [lookupLastLower, dictLookup, hr, hk, h2, hkr]

theorem clearStale_keys (d p : List (String × Json)) :
    (clearStale d p).map Prod.fst = d.map Prod.fst := by
  induction d with
  | nil => rfl
  | cons e rest ih =>
      have hstep : clearStale (e :: rest) p =
          (if e.1 ≠ "parent" ∧ ¬ hasKey p e.1 then (e.1, Json.null) else e) ::
            clearStale rest p := by
        simp [clearStale]
      rw [hstep, List.map_cons, List.map_cons, ih]
      by_cases hpar : e.1 = "parent" <;> by_cases hhk : hasKey p e.1 = true <;>
        simp [hpar, hhk]

theorem clearStale_lookup (d p : List (String × Json)) (k : String) :
    dictLookup (clearStale d p) k =
      match dictLookup d k with
      | some v =>
          some (if k ≠ "parent" ∧ ¬ hasKey p k then Json.null else v)
      | none => none := by
  induction d with
  | nil => rfl
  | cons e rest ih =>
      have hstep : clearStale (e :: rest) p =
          (if e.1 ≠ "parent" ∧ ¬ hasKey p e.1 then (e.1, Json.null) else e) ::
            clearStale rest p := by
        simp [clearStale]
      rw [hstep]
      by_cases he : e.1 = k
      · subst he
        by_cases hpar : e.1 = "parent" <;>
          by_cases hhk : hasKey p e.1 = true <;>
          simp [dictLookup, hpar, hhk]
      · by_cases hc : e.1 ≠ "parent" ∧ ¬ hasKey p e.1
        · rw [if_pos hc]
          simp [dictLookup, he, ih]
        · rw [if_neg hc]
          simp [dictLookup, he, ih]

theorem copyId_lookup (e p : List (String × Json)) (k : String)
    (hk : k ≠ "id") : dictLookup (copyId e p) k = dictLookup e k := by
  rw [copyId]
  cases h : dictLookup p "id" with
  | none => rfl
  | some w =>
      rw [dictLookup_dictInsert]
      simp [hk]

theorem dictInsert_mem_keys (k0 : String) (v : Json) :
    ∀ (d : List (String × Json)) (k : String),
    k ∈ (dictInsert d k0 v).map Prod.fst ↔
      k ∈ d.map Prod.fst ∨ k = k0 := by
  intro d
  induction d with
  | nil => intro k; simp [dictInsert]
  | cons e rest ih =>
      intro k
      by_cases he : e.1 = k0
      · subst he
        rw [dictInsert, if_pos rfl]
        simp only [List.map_cons, List.mem_cons]
        tauto
      · rw [dictInsert, if_neg he]
        simp only [List.map_cons, List.mem_cons, ih]
        tauto

theorem dictInsert_keys_nodup (k0 : String) (v : Json) :
    ∀ (d : List (String × Json)), (d.map Prod.fst).Nodup →
    ((dictInsert d k0 v).map Prod.fst).Nodup := by
  intro d
  induction d with
  | nil => intro _; simp [dictInsert]
  | cons e rest ih =>
      intro hnd
      rw [List.map_cons] at hnd
      have hnd2 := List.nodup_cons.mp hnd
      by_cases he : e.1 = k0
      · rw [dictInsert, if_pos he, List.map_cons]
        exact List.nodup_cons.mpr ⟨hnd2.1, hnd2.2⟩
      · rw [dictInsert, if_neg he, List.map_cons]
        refine List.nodup_cons.mpr ⟨?_, ih hnd2.2⟩
        intro hc
        rcases (dictInsert_mem_keys k0 v rest e.1).mp hc with h | h
        · exact hnd2.1 h
        · exact he h

theorem dictInsert_keys_lowercase (k0 : String) (v : Json)
    (hl0 : lowerStr k0 = k0) :
    ∀ (d : List (String × Json)), (∀ kv ∈ d, lowerStr kv.1 = kv.1) →
    ∀ kv ∈ dictInsert d k0 v, lowerStr kv.1 = kv.1 := by
  intro d
  induction d with
  | nil =>
      intro _ kv hm
      simp [dictInsert] at hm
      subst hm
      exact hl0
  | cons e rest ih =>
      intro hlow kv hm
      by_cases he : e.1 = k0
      · rw [dictInsert, if_pos he] at hm
        rcases List.mem_cons.mp hm with h1 | h1
        · subst h1
          exact hlow e (List.mem_cons_self _ _)
        · exact hlow kv (List.mem_cons_of_mem _ h1)
      · rw [dictInsert, if_neg he] at hm
        rcases List.mem_cons.mp hm with h1 | h1
        · rw [h1]
          exact hlow e (List.mem_cons_self _ _)
        · exact ih (fun q hq => hlow q (List.mem_cons_of_mem _ hq)) kv h1

theorem countP_le_one_of_lowercase_nodup (kk : String) :
    ∀ (d : List (String × Json)), (∀ kv ∈ d, lowerStr kv.1 = kv.1) →
    (d.map Prod.fst).Nodup →
    d.countP (fun e => lowerStr e.1 == kk) ≤ 1 := by
  intro d
  induction d with
  | nil => intro _ _; simp
  | cons e rest ih =>
      intro hlow hnd
      rw [List.map_cons] at hnd
      have hnd2 := List.nodup_cons.mp hnd
      have hlow2 : ∀ kv ∈ rest, lowerStr kv.1 = kv.1 :=
        fun q hq => hlow q (List.mem_cons_of_mem _ hq)
      rw [List.countP_cons]
      by_cases hp : (lowerStr e.1 == kk) = true
      · have hek : e.1 = kk := by
          have hl := hlow e (List.mem_cons_self _ _)
          rw [hl] at hp
          simpa using hp
        have hz : rest.countP (fun q => lowerStr q.1 == kk) = 0 := by
          refine List.countP_eq_zero.mpr ?_
          intro q hq hqp
          have hql : lowerStr q.1 = q.1 := hlow2 q hq
          rw [hql] at hqp
          have hq1 : q.1 = kk := by simpa using hqp
          have hqm : q.1 ∈ rest.map Prod.fst := List.mem_map.mpr ⟨q, hq, rfl⟩
          rw [hq1, ← hek] at hqm
          exact hnd2.1 hqm
        simp [hz, hp]
      · rw [if_neg hp]
        simpa using ih hlow2 hnd2.2

theorem hydrate_lookup (e p : List (String × Json)) (k : String) :
    dictLookup (hydrate e p) k =
      Option.map lowerJson
        (lookupLastLower (storeNew (clearStale (copyId e p) p) p) k) := by
  rw [hydrate, lowerDict, dictOfPairs_lookup, lookupLast_lowerFields]

/-- C2 (amended): the claim fails only on objects nested inside arrays,
which the code leaves untouched; this is the claim with the lowercasing
and wrapping restricted to the top level and to nested objects reachable
through object fields.  For every hydration of a record whose existing
attribute keys are lowercase and duplicate-free with a params dict whose
keys stay distinct after lowercasing: every params entry is stored under
its lowercased key with its value normalized by the (object-fields-only)
lowercasing pass; every existing attribute other than the reserved
`parent` that no params key refreshes is cleared to null; a `parent`
attribute survives untouched by the sweep; and a params `id` field ends
up on the record's `id` attribute. -/
theorem hydrate_amended_spec (e p : List (String × Json))
    (hlow : ∀ kv ∈ e, lowerStr kv.1 = kv.1)
    (hend : (e.map Prod.fst).Nodup)
    (hpnd : (p.map (fun kv => lowerStr kv.1)).Nodup) :
    (∀ kv ∈ p, dictLookup (hydrate e p) (lowerStr kv.1) =
      some (lowerJson kv.2)) ∧
    (∀ kv ∈ e, kv.1 ≠ "parent" → (∀ q ∈ p, lowerStr q.1 ≠ kv.1) →
      dictLookup (hydrate e p) kv.1 = some Json.null) ∧
    (∀ v, dictLookup e "parent" = some v →
      (∀ q ∈ p, lowerStr q.1 ≠ "parent") →
      dictLookup (hydrate e p) "parent" = some (lowerJson v)) ∧
    (∀ v, dictLookup p "id" = some v →
      dictLookup (hydrate e p) "id" = some (lowerJson v)) := by
  have h0low : ∀ kv ∈ copyId e p, lowerStr kv.1 = kv.1 := by
    rw [copyId]
    cases h : dictLookup p "id" with
    | none => exact hlow
    | some w => exact dictInsert_keys_lowercase "id" w rfl e hlow
  have h0nd : ((copyId e p).map Prod.fst).Nodup := by
    rw [copyId]
    cases h : dictLookup p "id" with
    | none => exact hend
    | some w => exact dictInsert_keys_nodup "id" w e hend
  have h1low : ∀ kv ∈ clearStale (copyId e p) p, lowerStr kv.1 = kv.1 := by
    intro kv hm
    have hk : kv.1 ∈ (clearStale (copyId e p) p).map Prod.fst :=
      List.mem_map.mpr ⟨kv, hm, rfl⟩
    rw [clearStale_keys] at hk
    obtain ⟨q, hq, hq1⟩ := List.mem_map.mp hk
    rw [← hq1]
    exact h0low q hq
  have h1nd : ((clearStale (copyId e p) p).map Prod.fst).Nodup := by
    rw [clearStale_keys]
    exact h0nd
  have hcnt : ∀ kv ∈ p, (clearStale (copyId e p) p).countP
      (fun q => lowerStr q.1 == lowerStr kv.1) ≤ 1 :=
    fun kv _ => countP_le_one_of_lowercase_nodup (lowerStr kv.1)
      (clearStale (copyId e p) p) h1low h1nd
  have hstore : ∀ kv ∈ p, dictLookup (hydrate e p) (lowerStr kv.1) =
      some (lowerJson kv.2) := by
    intro kv hm
    rw [hydrate_lookup,
      lookupLastLower_storeNew p (clearStale (copyId e p) p)
        (lowerStr kv.1) hpnd hcnt,
      lookupLastLower_self p hpnd kv hm]
    rfl
  refine ⟨hstore, ?_, ?_, ?_⟩
  · intro kv hm hpar hnotin
    have hlekv : lowerStr kv.1 = kv.1 := hlow kv hm
    rw [hydrate_lookup,
      lookupLastLower_storeNew p (clearStale (copyId e p) p) kv.1 hpnd hcnt,
      lookupLastLower_eq_none p kv.1 hnotin,
      lookupLastLower_of_lowercase (clearStale (copyId e p) p) h1low h1nd,
      clearStale_lookup]
    have hd0 : dictLookup (copyId e p) kv.1 = dictLookup e kv.1 := by
      by_cases hkid : kv.1 = "id"
      · rw [copyId]
        cases hp : dictLookup p "id" with
        | none => rfl
        | some w =>
            have hmem : ("id", w) ∈ p := dictLookup_mem p "id" w hp
            have := hnotin ("id", w) hmem
            rw [hkid] at this
            exact absurd rfl this
      · exact copyId_lookup e p kv.1 hkid
    rw [hd0, dictLookup_nodup e hend kv hm]
    have hhk : hasKey p kv.1 = false := by
      rw [hasKey_eq_false_iff]
      intro q hq hc
      exact hnotin q hq (by rw [hc, hlekv])
    simp [hpar, hhk, lowerJson]
  · intro v hpv hnopar
    rw [hydrate_lookup,
      lookupLastLower_storeNew p (clearStale (copyId e p) p) "parent"
        hpnd hcnt,
      lookupLastLower_eq_none p "parent" hnopar,
      lookupLastLower_of_lowercase (clearStale (copyId e p) p) h1low h1nd,
      clearStale_lookup, copyId_lookup e p "parent" (by decide), hpv]
    simp
  · intro v hpid
    have hm : ("id", v) ∈ p := dictLookup_mem p "id" v hpid
    exact hstore ("id", v) hm

/-- C2 counterexample: hydrating from a params dict whose only nested
object sits inside an array.  The code lowercases the top-level key but
leaves the nested key `B` uppercase, while the claim's reading — every
nested key normalized, every nested object wrapped (`hydrateClaimed`) —
lowercases it to `b`. -/
theorem hydrate_nested_array_counterexample :
    hydrate [] [("X", Json.arr [Json.obj [("B", Json.num 1)]])] =
      [("x", Json.arr [Json.obj [("B", Json.num 1)]])] ∧
    hydrateClaimed [] [("X", Json.arr [Json.obj [("B", Json.num 1)]])] =
      [("x", Json.arr [Json.obj [("b", Json.num 1)]])] ∧
    hydrate [] [("X", Json.arr [Json.obj [("B", Json.num 1)]])] ≠
      hydrateClaimed [] [("X", Json.arr [Json.obj [("B", Json.num 1)]])] := by
  refine ⟨rfl, rfl, ?_⟩
  intro h
  have e1 : hydrate [] [("X", Json.arr [Json.obj [("B", Json.num 1)]])] =
      [("x", Json.arr [Json.obj [("B", Json.num 1)]])] := rfl
  have e2 : hydrateClaimed []
      [("X", Json.arr [Json.obj [("B", Json.num 1)]])] =
      [("x", Json.arr [Json.obj [("b", Json.num 1)]])] := rfl
  rw [e1, e2] at h
  simp at h

/-- Witness for C2 (amended) at the claim's own example extended with a
stale attribute and a `parent` back-reference. -/
theorem hydrate_amended_spec_witness :
    dictLookup (hydrate [("extra", Json.str "old"), ("parent", Json.str "P")]
      [("ID", Json.num 5), ("Name", Json.str "Acme")]) "id" =
        some (Json.num 5) ∧
    dictLookup (hydrate [("extra", Json.str "old"), ("parent", Json.str "P")]
      [("ID", Json.num 5), ("Name", Json.str "Acme")]) "name" =
        some (Json.str "Acme") ∧
    dictLookup (hydrate [("extra", Json.str "old"), ("parent", Json.str "P")]
      [("ID", Json.num 5), ("Name", Json.str "Acme")]) "extra" =
        some Json.null ∧
    dictLookup (hydrate [("extra", Json.str "old"), ("parent", Json.str "P")]
      [("ID", Json.num 5), ("Name", Json.str "Acme")]) "parent" =
        some (Json.str "P") := by
  obtain ⟨h1, h2, h3, _⟩ := hydrate_amended_spec
    [("extra", Json.str "old"), ("parent", Json.str "P")]
    [("ID", Json.num 5), ("Name", Json.str "Acme")]
    (by decide) (by decide) (by decide)
  refine ⟨?_, ?_, ?_, ?_⟩
  · exact h1 ("ID", Json.num 5) (List.mem_cons_self _ _)
  · exact h1 ("Name", Json.str "Acme")
      (List.mem_cons_of_mem _ (List.mem_cons_self _ _))
  · exact h2 ("extra", Json.str "old") (List.mem_cons_self _ _)
      (by decide) (by decide)
  · exact h3 (Json.str "P") rfl (by decide)

end Facturacom
